import Mathlib

/-!
Verification of the star-topology federated-computation coordinator
(flame/schemas/star/star_model.py) against its specification.

The embedding is shallow: each method of StarModel is translated into an
executable Lean function over explicit inputs.  Blocking transport calls are
modelled by streams of the values successive calls return (one list entry or
stream index per call); the unbounded while-loops are run on a finite prefix
of those streams (a fuel argument or an attempt list), with a distinguished
outcome for the prefix running out while the loop is still blocked.  Python
exceptions are modelled as distinguished constructors of the result types.
-/

namespace StarSDK

/-- Node identifiers are opaque values handed out by the transport facade
(get_aggregator_id / get_participant_ids); modelled as Nat. -/
abbrev NodeID := Nat

/-- A message as the protocol consults it: the round loops only ever read
message.body with key result, a free-form serialized value (a Python str,
since both sides send str(...)). -/
structure Msg where
  result : String
deriving DecidableEq

/-! ## Aggregator round loop, star_model.py lines 47-74 -/

/-- Python truthiness of one entry of the response dict returned by
await_and_return_responses: None and the empty list are falsy, a non-empty
message list is truthy (the guard on line 52 is all over these values). -/
def respTruthy : Option (List Msg) → Bool
  | none => false
  | some msgs => !msgs.isEmpty

/-- Line 52: all of v for v in node_response_dict.values. -/
def allResponsesPresent (rs : List (Option (List Msg))) : Bool :=
  rs.all respTruthy

/-- Lines 53-54: response negative-one-indexed body result for each non-None
response.  none models the IndexError that response with index -1 raises on
an empty list. -/
def extractNodeResults : List (Option (List Msg)) → Option (List String)
  | [] => some []
  | none :: rest => extractNodeResults rest
  | some msgs :: rest =>
    match msgs.getLast? with
    | none => none
    | some m => (extractNodeResults rest).map (fun l => m.result :: l)

/-- What one iteration of the collecting phase does with the response dict:
proceed to aggregation with the extracted latest results, re-block (fall
through to the next await on line 49), or fault (IndexError). -/
inductive CollectAction where
  | aggregate (nodeResults : List String)
  | reblock
  | fault
deriving DecidableEq

/-- Lines 52-54: the all-guard followed by the extraction comprehension. -/
def collectStep (rs : List (Option (List Msg))) : CollectAction :=
  if allResponsesPresent rs then
    match extractNodeResults rs with
    | some results => CollectAction.aggregate results
    | none => CollectAction.fault
  else CollectAction.reblock

/-- Environment of one aggregator run: what the i-th call of
await_and_return_responses returns (one Option (List Msg) per partner), what
the aggregation strategy returns on its i-th invocation, and whether
submit_final_result returns (true) or raises (false). -/
structure AggEnv where
  responses : Nat → List (Option (List Msg))
  aggregateStrat : Nat → List String → String × Bool
  submitOk : Bool

/-- Observable actions of the aggregator round loop. -/
inductive AggEvent where
  | collect
  | aggregateCall (nodeResults : List String)
  | submitCall (res : String)
  | signalFinished
  | broadcast (res : String)
deriving DecidableEq

/-- How a fueled run of the aggregator loop ends. -/
inductive AggExit where
  | finishedLoop
  | outOfFuel
  | submitRaised
  | collectFault
deriving DecidableEq

/-- Lines 47-73 of start_aggregator, as a fueled loop.  flag is the value
converged reads (self.flame.config.finished).  Modelled from the spec for the
FlameCoreSDK collaborator (not under src/): signalAnalysisFinished sets
GlobalConvergedFlag and isConverged reads it, so after analysis_finished the
loop condition observes true; submit_final_result either returns an
acknowledgment or raises, in which case the exception propagates out of the
loop. -/
def runAggregator (env : AggEnv) : Nat → Nat → Bool → List AggEvent × AggExit
  | 0, _, _ => ([], AggExit.outOfFuel)
  | fuel + 1, i, flag =>
    if flag then ([], AggExit.finishedLoop)
    else
      match collectStep (env.responses i) with
      | CollectAction.reblock =>
        let rest := runAggregator env fuel (i + 1) flag
        (AggEvent.collect :: rest.1, rest.2)
      | CollectAction.fault => ([AggEvent.collect], AggExit.collectFault)
      | CollectAction.aggregate results =>
        let res := env.aggregateStrat i results
        if res.2 then
          if env.submitOk then
            let rest := runAggregator env fuel (i + 1) true
            (AggEvent.collect :: AggEvent.aggregateCall results ::
              AggEvent.submitCall res.1 :: AggEvent.signalFinished :: rest.1, rest.2)
          else ([AggEvent.collect, AggEvent.aggregateCall results], AggExit.submitRaised)
        else
          let rest := runAggregator env fuel (i + 1) flag
          (AggEvent.collect :: AggEvent.aggregateCall results ::
            AggEvent.broadcast res.1 :: rest.1, rest.2)

/-- Number of signalFinished events in a trace. -/
def countSignals : List AggEvent → Nat
  | [] => 0
  | AggEvent.signalFinished :: rest => countSignals rest + 1
  | _ :: rest => countSignals rest

/-! ## Readiness synchronizer, _wait_until_partners_ready, lines 121-155 -/

/-- Aggregator variant of the handshake, lines 138-153.  One list entry per
loop iteration: the received_list that iteration's send_message returns.  The
state carried across iterations is the pair (latest_num_responses,
num_responses), initially (-1, 0); latest_num_responses only drives the
progress log.  Returns how many send_message calls ran and whether the loop
hit its break (num_responses equal to the number of analyzer ids); false
means the attempt list ran out with the loop still going. -/
def aggReadyRun (numPartners : Nat) : List (List NodeID) → Int → Nat → Nat × Bool
  | [], _, _ => (0, false)
  | received :: rest, latest, num =>
    let latest2 : Int := if latest < (num : Int) then (num : Int) else latest
    let num2 := received.length
    if num2 = numPartners then (1, true)
    else
      let r := aggReadyRun numPartners rest latest2 num2
      (r.1 + 1, r.2)

/-- The aggregator handshake broke out of its loop within the given attempts. -/
def aggReadySucceeds (numPartners : Nat) (attempts : List (List NodeID)) : Bool :=
  (aggReadyRun numPartners attempts (-1) 0).2

/-- Modelled from the spec: the aggregator-side readiness condition as the
spec words it (terminate successfully when every partner has responded at
least once across attempts, responders accumulating monotonically).  Stated
for comparison with aggReadySucceeds, which is translated from the source. -/
def aggReadySpecMonotone (partners : List NodeID) (attempts : List (List NodeID)) : Bool :=
  partners.all fun p => attempts.any fun received => received.contains p

/-- Analyzer variant of the handshake, lines 122-136.  One list entry per
loop iteration: the received_list that iteration's send_message returns
(received_list starts empty, so the loop always runs at least once).  Returns
how many send_message calls ran and the final received_list if the loop
condition aggregator_id not in received_list became false; none means the
attempt list ran out with the loop still going. -/
def anaReadyRun (aggId : NodeID) : List (List NodeID) → Nat × Option (List NodeID)
  | [] => (0, none)
  | received :: rest =>
    if aggId ∈ received then (1, some received)
    else
      let r := anaReadyRun aggId rest
      (r.1 + 1, r.2)

/-- How the analyzer-side handshake ends. -/
inductive ReadyOutcome where
  | success
  | fatalError
  | stillLooping
deriving DecidableEq

/-- Lines 122-136 in full: the loop, then the check on lines 133-134 that
raises BrokenPipeError when the aggregator is not in the final
received_list. -/
def analyzerReady (aggId : NodeID) (attempts : List (List NodeID)) : ReadyOutcome :=
  match (anaReadyRun aggId attempts).2 with
  | none => ReadyOutcome.stillLooping
  | some received =>
    if aggId ∈ received then ReadyOutcome.success else ReadyOutcome.fatalError

/-! ## Analyzer round loop, start_analyzer lines 97-115 -/

/-- Environment of one analyzer run: the successive values converged reads
(one per call of self.converged, two calls per loop iteration), what the
analysis strategy returns on its i-th invocation, and the aggregator entry of
the response dict the i-th await_and_return_responses(timeout=300) call
returns. -/
structure AnaEnv where
  flagReads : Nat → Bool
  analyzeStrat : Nat → String × Bool
  waitResponses : Nat → Option (List Msg)

/-- Observable actions of the analyzer round loop. -/
inductive AnaEvent where
  | analyzeCall (res : String)
  | sendIntermediate (res : String)
  | waitForAggregated
deriving DecidableEq

/-- How a fueled run of the analyzer loop ends. -/
inductive AnaExit where
  | finishedLoop
  | outOfFuel
  | waitFault
deriving DecidableEq

/-- Loop state: read counter for converged, call counter for analyze, call
counter for the timed wait, the local converged variable, and
aggregator_results. -/
structure AnaState where
  rc : Nat
  ac : Nat
  wc : Nat
  converged : Bool
  aggResults : Option String
deriving DecidableEq

/-- What extracting the result on line 114 does:
response_dict with key aggregator_id, index -1, body with key result.  A None
entry (timed-out sender) makes the subscript raise TypeError, an empty list
raises IndexError. -/
inductive ExtractOutcome where
  | ok (res : String)
  | faultNone
  | faultEmpty
deriving DecidableEq

/-- Line 114's extraction over the aggregator entry of the response dict. -/
def extractLatestAggResult : Option (List Msg) → ExtractOutcome
  | none => ExtractOutcome.faultNone
  | some msgs =>
    match msgs.getLast? with
    | none => ExtractOutcome.faultEmpty
    | some m => ExtractOutcome.ok m.result

/-- Lines 110-114: the second converged read and, when both flags are still
false, the timed wait for aggregated_results and the extraction.  The third
component is true when the extraction faulted. -/
def anaWaitStep (env : AnaEnv) (s : AnaState) (evs1 : List AnaEvent) :
    List AnaEvent × AnaState × Bool :=
  let globalNow := env.flagReads s.rc
  let s2 : AnaState := ⟨s.rc + 1, s.ac, s.wc, s.converged, s.aggResults⟩
  if globalNow then (evs1, s2, false)
  else if s2.converged then (evs1, s2, false)
  else
    match extractLatestAggResult (env.waitResponses s2.wc) with
    | ExtractOutcome.ok r =>
      (evs1 ++ [AnaEvent.waitForAggregated], ⟨s2.rc, s2.ac, s2.wc + 1, s2.converged, some r⟩,
        false)
    | ExtractOutcome.faultNone => (evs1 ++ [AnaEvent.waitForAggregated], s2, true)
    | ExtractOutcome.faultEmpty => (evs1 ++ [AnaEvent.waitForAggregated], s2, true)

/-- Lines 101-114: one iteration of the analyzer while-loop body, entered
after the loop condition observed converged to be false.  If the local
converged variable is false the strategy runs and its result is sent as
intermediate_results (lines 101-109); then the wait step (lines 110-114). -/
def anaIteration (env : AnaEnv) (s : AnaState) : List AnaEvent × AnaState × Bool :=
  if s.converged then anaWaitStep env s []
  else
    let res := env.analyzeStrat s.ac
    anaWaitStep env ⟨s.rc, s.ac + 1, s.wc, res.2, s.aggResults⟩
      [AnaEvent.analyzeCall res.1, AnaEvent.sendIntermediate res.1]

/-- Lines 100-115: the analyzer while-loop, fueled.  Each iteration reads
converged for the loop condition (consuming one flagReads entry), then runs
the body. -/
def runAnalyzer (env : AnaEnv) : Nat → AnaState → List AnaEvent × AnaExit
  | 0, _ => ([], AnaExit.outOfFuel)
  | fuel + 1, s =>
    if env.flagReads s.rc then ([], AnaExit.finishedLoop)
    else
      let step := anaIteration env ⟨s.rc + 1, s.ac, s.wc, s.converged, s.aggResults⟩
      if step.2.2 then (step.1, AnaExit.waitFault)
      else
        let rest := runAnalyzer env fuel step.2.1
        (step.1 ++ rest.1, rest.2)

/-! ## Data fetch adapter, _get_data, lines 157-177 -/

/-- One HTTP response from the external data source: its status code and the
outcome of response.json (some body when the body parses, none when parsing
raises). -/
structure FhirResponse where
  status : Nat
  parsed : Option String
deriving DecidableEq

/-- raise_for_status of the HTTP client raises exactly on a non-2xx status
(the data source interface of the spec: JSON body or non-2xx status). -/
def statusOk (s : Nat) : Bool := 200 ≤ s && s ≤ 299

/-- What _get_data returns: a parsed body (single-query success), a mapping
keyed by query (multi-query), or Python False, the no-data sentinel. -/
inductive GetDataResult where
  | single (body : String)
  | multi (m : List (String × String))
  | noData
deriving DecidableEq

/-- Lines 158-165: the single-query branch.  raise_for_status and a parse
failure both land in the bare except, which returns False. -/
def getDataSingle (resp : FhirResponse) : GetDataResult :=
  if statusOk resp.status then
    match resp.parsed with
    | some body => GetDataResult.single body
    | none => GetDataResult.noData
  else GetDataResult.noData

/-- The query counts as successful: 2xx status and a body that parses. -/
def fetchSucceeds (resp : FhirResponse) : Bool := statusOk resp.status && resp.parsed.isSome

/-- Python dict assignment responses with key k set to v: overwrite in place
when the key exists, append otherwise. -/
def dictInsert (m : List (String × String)) (k v : String) : List (String × String) :=
  if m.any (fun p => p.1 == k) then
    m.map (fun p => if p.1 == k then (k, v) else p)
  else m ++ [(k, v)]

/-- Lines 167-176: the for-loop over the queries, accumulating the responses
dict; a failing query is skipped (the except branch logs and passes). -/
def getDataMultiLoop : List (String × FhirResponse) → List (String × String) →
    List (String × String)
  | [], acc => acc
  | (q, resp) :: rest, acc =>
    getDataMultiLoop rest
      (if statusOk resp.status then
        match resp.parsed with
        | some body => dictInsert acc q body
        | none => acc
      else acc)

/-- Lines 166-177: the multi-query branch, returning the accumulated dict or
False when it ended up empty.  Input: each query paired with the response its
GET receives. -/
def getDataMulti (qs : List (String × FhirResponse)) : GetDataResult :=
  let responses := getDataMultiLoop qs []
  if responses.isEmpty then GetDataResult.noData else GetDataResult.multi responses

/-! ## Entrypoints start_aggregator (36-78) and start_analyzer (80-119) -/

/-- Role resolution, lines 30-31. -/
def is_aggregator (role : String) : Bool := role == "aggregator"

/-- Role resolution, lines 33-34. -/
def is_analyzer (role : String) : Bool := role == "default"

/-- _ERROR_MESSAGES.IS_ANALYZER, line 15. -/
def IS_ANALYZER_MSG : String :=
  "Node is configured as analyzer. Unable to execute command associated to aggregator."

/-- _ERROR_MESSAGES.IS_AGGREGATOR, line 16. -/
def IS_AGGREGATOR_MSG : String :=
  "Node is configured as aggregator. Unable to execute command associated to analyzer."

/-- _ERROR_MESSAGES.IS_INCORRECT_CLASS, lines 17-18. -/
def IS_INCORRECT_CLASS_MSG : String :=
  "The object/class given is incorrect, e.g. is not correctly implementing/inheriting the intended template class."

/-- How the strategy argument relates to the template class on line 39 or 83:
an instance of it, a subclass of it (instantiated on line 42 or 86), or
neither. -/
inductive StrategyArg where
  | inst
  | subclass
  | invalid
deriving DecidableEq

/-- Observable actions of an entrypoint run. -/
inductive StartEvent where
  | instantiateStrategy
  | sendReadyCheck
  | fetchData
  | aggEvent (e : AggEvent)
  | anaEvent (e : AnaEvent)
  | nodeFinishedHook
deriving DecidableEq

/-- How start_aggregator ends. -/
inductive AggStartOutcome where
  | roleMismatch (msg : String)
  | invalidStrategy (msg : String)
  | blockedReady
  | ranLoop (e : AggExit)
deriving DecidableEq

/-- How start_analyzer ends.  unreachableReadyRaise is the BrokenPipeError of
line 134, kept as its own outcome so its unreachability can be stated. -/
inductive AnaStartOutcome where
  | roleMismatch (msg : String)
  | invalidStrategy (msg : String)
  | blockedReady
  | unreachableReadyRaise
  | ranLoop (e : AnaExit)
deriving DecidableEq

/-- start_aggregator, lines 36-78: role gate, strategy-class gate and
instantiation, ready check, round loop, node_finished hook.  readyAttempts
feeds the handshake loop, env and fuel the round loop. -/
def start_aggregator (role : String) (arg : StrategyArg) (readyAttempts : List (List NodeID))
    (numPartners : Nat) (env : AggEnv) (fuel : Nat) : List StartEvent × AggStartOutcome :=
  if is_aggregator role then
    if arg = StrategyArg.invalid then ([], AggStartOutcome.invalidStrategy IS_INCORRECT_CLASS_MSG)
    else
      let instEvs : List StartEvent :=
        if arg = StrategyArg.subclass then [StartEvent.instantiateStrategy] else []
      let ready := aggReadyRun numPartners readyAttempts (-1) 0
      let readyEvs := List.replicate ready.1 StartEvent.sendReadyCheck
      if ready.2 then
        let run := runAggregator env fuel 0 false
        let finEvs : List StartEvent :=
          if run.2 = AggExit.finishedLoop then [StartEvent.nodeFinishedHook] else []
        (instEvs ++ readyEvs ++ run.1.map StartEvent.aggEvent ++ finEvs,
          AggStartOutcome.ranLoop run.2)
      else (instEvs ++ readyEvs, AggStartOutcome.blockedReady)
  else ([], AggStartOutcome.roleMismatch IS_ANALYZER_MSG)

/-- start_analyzer, lines 80-119: role gate, strategy-class gate and
instantiation, ready check (with the post-loop raise of lines 133-134), data
fetch, round loop, node_finished hook. -/
def start_analyzer (role : String) (arg : StrategyArg) (readyAttempts : List (List NodeID))
    (aggId : NodeID) (env : AnaEnv) (fuel : Nat) : List StartEvent × AnaStartOutcome :=
  if is_analyzer role then
    if arg = StrategyArg.invalid then ([], AnaStartOutcome.invalidStrategy IS_INCORRECT_CLASS_MSG)
    else
      let instEvs : List StartEvent :=
        if arg = StrategyArg.subclass then [StartEvent.instantiateStrategy] else []
      let ready := anaReadyRun aggId readyAttempts
      let readyEvs := List.replicate ready.1 StartEvent.sendReadyCheck
      match ready.2 with
      | none => (instEvs ++ readyEvs, AnaStartOutcome.blockedReady)
      | some received =>
        if aggId ∈ received then
          let run := runAnalyzer env fuel ⟨0, 0, 0, false, none⟩
          let finEvs : List StartEvent :=
            if run.2 = AnaExit.finishedLoop then [StartEvent.nodeFinishedHook] else []
          (instEvs ++ readyEvs ++ StartEvent.fetchData :: run.1.map StartEvent.anaEvent ++ finEvs,
            AnaStartOutcome.ranLoop run.2)
        else (instEvs ++ readyEvs, AnaStartOutcome.unreachableReadyRaise)
  else ([], AnaStartOutcome.roleMismatch IS_AGGREGATOR_MSG)

/-! ## Concrete inputs used by the witness theorems -/

/-- An analyzer environment where the global flag stays false, the strategy
keeps returning a non-converged result, and every timed wait times out. -/
def quietAnaEnv : AnaEnv := ⟨fun _ => false, fun _ => ("5", false), fun _ => none⟩

/-- An analyzer loop state whose local converged variable is already true. -/
def convergedAnaState : AnaState := ⟨0, 0, 0, true, none⟩

/-- An aggregator environment where no partner ever responds. -/
def quietAggEnv : AggEnv := ⟨fun _ => [], fun _ _ => ("0", false), true⟩

/-! ## Theorems -/

theorem runAggregator_flagTrue (env : AggEnv) (fuel i : Nat) :
    (runAggregator env fuel i true).1 = [] := by
  cases fuel <;> rfl

theorem respTruthy_iff (r : Option (List Msg)) :
    respTruthy r = true ↔ ∃ msgs, r = some msgs ∧ msgs ≠ [] := by
  cases r with
  | none => simp [respTruthy]
  | some msgs => simp [respTruthy, List.isEmpty_iff]

theorem allResponsesPresent_iff (rs : List (Option (List Msg))) :
    allResponsesPresent rs = true ↔ ∀ r ∈ rs, ∃ msgs, r = some msgs ∧ msgs ≠ [] := by
  simp [allResponsesPresent, List.all_eq_true, respTruthy_iff]

theorem extractNodeResults_isSome (rs : List (Option (List Msg)))
    (h : ∀ r ∈ rs, ∃ msgs, r = some msgs ∧ msgs ≠ []) :
    ∃ results, extractNodeResults rs = some results := by
  induction rs with
  | nil => exact ⟨[], rfl⟩
  | cons r rest ih =>
    obtain ⟨msgs, hr, hne⟩ := h r (List.mem_cons_self r rest)
    subst hr
    obtain ⟨results, hres⟩ := ih fun x hx => h x (List.mem_cons_of_mem _ hx)
    obtain ⟨m, hm⟩ := Option.isSome_iff_exists.1 (List.getLast?_isSome.2 hne)
    exact ⟨m.result :: results, by simp [extractNodeResults, hm, hres]⟩

theorem aggregateCall_only_from_collectStep (env : AggEnv) :
    ∀ fuel i flag results,
      AggEvent.aggregateCall results ∈ (runAggregator env fuel i flag).1 →
      ∃ j, collectStep (env.responses j) = CollectAction.aggregate results := by
  intro fuel
  induction fuel with
  | zero => intro i flag results h; simp [runAggregator] at h
  | succ fuel ih =>
    intro i flag results h
    cases flag with
    | true => simp [runAggregator] at h
    | false =>
      rw [runAggregator] at h
      simp only [Bool.false_eq_true, if_false] at h
      cases hc : collectStep (env.responses i) with
      | reblock =>
        rw [hc] at h
        simp only [List.mem_cons] at h
        rcases h with h | h
        · exact absurd h (by simp)
        · exact ih (i + 1) false results h
      | fault =>
        rw [hc] at h
        simp at h
      | aggregate results2 =>
        rw [hc] at h
        simp only [] at h
        cases hconv : (env.aggregateStrat i results2).2 with
        | false =>
          simp only [hconv, Bool.false_eq_true, if_false, List.mem_cons] at h
          rcases h with h | h | h
          · exact absurd h (by simp)
          · exact ⟨i, by injection h with h2; rw [hc, h2]⟩
          · rcases h with h | h
            · exact absurd h (by simp)
            · exact ih (i + 1) false results h
        | true =>
          cases hsub : env.submitOk with
          | false =>
            simp only [hconv, hsub, Bool.false_eq_true, if_false, if_true, List.mem_cons] at h
            rcases h with h | h | h
            · exact absurd h (by simp)
            · exact ⟨i, by injection h with h2; rw [hc, h2]⟩
            · simp at h
          | true =>
            simp only [hconv, hsub, if_true, List.mem_cons] at h
            rcases h with h | h | h | h | h
            · exact absurd h (by simp)
            · exact ⟨i, by injection h with h2; rw [hc, h2]⟩
            · exact absurd h (by simp)
            · exact absurd h (by simp)
            · rw [runAggregator_flagTrue] at h
              simp at h

/-- C1: the aggregation strategy is invoked exactly when every partner entry of
the response dict is present (a non-None, non-empty message list); if any
entry is absent the iteration re-blocks; and along any run of the round loop,
every invocation of the aggregation strategy carries results extracted from a
complete response set. -/
theorem c1_round_completeness_barrier (rs : List (Option (List Msg))) (env : AggEnv)
    (fuel i : Nat) :
    ((∃ results, collectStep rs = CollectAction.aggregate results) ↔
      ∀ r ∈ rs, ∃ msgs, r = some msgs ∧ msgs ≠ [])
    ∧ ((∃ r ∈ rs, r = none ∨ r = some []) → collectStep rs = CollectAction.reblock)
    ∧ (∀ results, AggEvent.aggregateCall results ∈ (runAggregator env fuel i false).1 →
      ∃ j, collectStep (env.responses j) = CollectAction.aggregate results) := by
  refine ⟨⟨?_, ?_⟩, ?_, fun results h => aggregateCall_only_from_collectStep env fuel i false results h⟩
  · rintro ⟨results, hres⟩
    rw [← allResponsesPresent_iff]
    by_contra hap
    rw [Bool.not_eq_true] at hap
    simp [collectStep, hap] at hres
  · intro hall
    have hap := (allResponsesPresent_iff rs).2 hall
    obtain ⟨results, hres⟩ := extractNodeResults_isSome rs hall
    exact ⟨results, by simp [collectStep, hap, hres]⟩
  · rintro ⟨r, hr, hbad⟩
    have hap : allResponsesPresent rs = false := by
      rw [Bool.eq_false_iff]
      intro htrue
      obtain ⟨msgs, hsome, hne⟩ := (allResponsesPresent_iff rs).1 htrue r hr
      rcases hbad with rfl | rfl
      · exact Option.noConfusion hsome
      · exact hne (by injection hsome with h2; exact h2.symm) |>.elim
    simp [collectStep, hap]

theorem aggReadyRun_true_iff (numPartners : Nat) :
    ∀ (attempts : List (List NodeID)) (latest : Int) (num : Nat),
      (aggReadyRun numPartners attempts latest num).2 = true ↔
      ∃ received ∈ attempts, received.length = numPartners := by
  intro attempts
  induction attempts with
  | nil => intro latest num; simp [aggReadyRun]
  | cons received rest ih =>
    intro latest num
    by_cases hlen : received.length = numPartners
    · simp [aggReadyRun, hlen]
    · simp only [aggReadyRun, if_neg hlen]
      rw [ih]
      simp [hlen]

/-- C3 (amended): the aggregator-side handshake breaks out of its loop exactly
when some single attempt's received list has as many entries as there are
partners; the responder count is replaced each attempt, never accumulated. -/
theorem c3_aggregator_ready_per_attempt_count (numPartners : Nat)
    (attempts : List (List NodeID)) :
    aggReadySucceeds numPartners attempts = true ↔
      ∃ received ∈ attempts, received.length = numPartners :=
  aggReadyRun_true_iff numPartners attempts (-1) 0

/-- C3 counterexample: with partners 0 and 1, partner 0 responds in the first
attempt and partner 1 in the second.  Under the spec's monotone accumulation
every partner has responded, but the handshake of the code has not terminated:
no single attempt reached the full count. -/
theorem c3_counterexample :
    aggReadySpecMonotone [0, 1] [[0], [1]] = true
    ∧ aggReadySucceeds ([0, 1] : List NodeID).length [[0], [1]] = false := by decide

theorem anaReadyRun_snd_eq_find (aggId : NodeID) :
    ∀ attempts : List (List NodeID),
      (anaReadyRun aggId attempts).2 = attempts.find? fun received => decide (aggId ∈ received) := by
  intro attempts
  induction attempts with
  | nil => rfl
  | cons received rest ih =>
    by_cases hmem : aggId ∈ received
    · simp [anaReadyRun, hmem, List.find?_cons_of_pos]
    · rw [List.find?_cons_of_neg _ (by simpa using hmem)]
      simp [anaReadyRun, hmem, ih]

theorem analyzerReady_ne_fatal (aggId : NodeID) (attempts : List (List NodeID)) :
    analyzerReady aggId attempts ≠ ReadyOutcome.fatalError := by
  unfold analyzerReady
  rw [anaReadyRun_snd_eq_find]
  cases hf : attempts.find? fun received => decide (aggId ∈ received) with
  | none => simp
  | some received =>
    have := List.find?_some hf
    simp only [decide_eq_true_eq] at this
    simp [this]

/-- C4 (amended): the analyzer-side handshake returns successfully exactly when
some attempt's received list contains the aggregator's NodeID — at the first
such attempt — and if no attempt ever contains it the loop just keeps going
(stillLooping); the fatal BrokenPipeError after the loop is unreachable. -/
theorem c4_analyzer_ready_behavior (aggId : NodeID) (attempts : List (List NodeID)) :
    (analyzerReady aggId attempts = ReadyOutcome.success ↔
      ∃ received ∈ attempts, aggId ∈ received)
    ∧ analyzerReady aggId attempts ≠ ReadyOutcome.fatalError
    ∧ ((∀ received ∈ attempts, aggId ∉ received) →
      analyzerReady aggId attempts = ReadyOutcome.stillLooping)
    ∧ (anaReadyRun aggId attempts).2 = attempts.find? fun received => decide (aggId ∈ received) := by
  refine ⟨?_, analyzerReady_ne_fatal aggId attempts, ?_, anaReadyRun_snd_eq_find aggId attempts⟩
  · unfold analyzerReady
    rw [anaReadyRun_snd_eq_find]
    cases hf : attempts.find? fun received => decide (aggId ∈ received) with
    | none =>
      simp only [List.find?_eq_none, decide_eq_true_eq] at hf
      simp only [List.mem_cons]
      constructor
      · intro h; exact absurd h (by simp)
      · rintro ⟨received, hmem, hagg⟩
        exact absurd hagg (hf received hmem)
    | some received =>
      have hp := List.find?_some hf
      simp only [decide_eq_true_eq] at hp
      have hm := List.mem_of_find?_eq_some hf
      simp only [hp, if_true]
      exact iff_of_true trivial ⟨received, hm, hp⟩
  · intro hnone
    unfold analyzerReady
    rw [anaReadyRun_snd_eq_find]
    have : (attempts.find? fun received => decide (aggId ∈ received)) = none := by
      rw [List.find?_eq_none]
      intro received hmem
      simp [hnone received hmem]
    rw [this]

/-- C4 counterexample: with a response stream in which the aggregator never
appears, the handshake is still blocked after the attempts shown, and no
attempt sequence whatsoever makes it raise the fatal transport error — the
raise after the loop is dead code, so the call never eventually fails. -/
theorem c4_counterexample :
    analyzerReady 0 [[], [], []] = ReadyOutcome.stillLooping
    ∧ ¬ ∃ attempts : List (List NodeID), analyzerReady 0 attempts = ReadyOutcome.fatalError :=
  ⟨by decide, fun ⟨attempts, h⟩ => analyzerReady_ne_fatal 0 attempts h⟩

/-- C8: the single-query branch of the data fetch adapter returns the parsed
body exactly when the status is 2xx and the body parses, and returns the
no-data sentinel False exactly when the status is non-2xx or parsing fails. -/
theorem c8_single_query (resp : FhirResponse) (body : String) :
    (getDataSingle resp = GetDataResult.single body ↔
      statusOk resp.status = true ∧ resp.parsed = some body)
    ∧ (getDataSingle resp = GetDataResult.noData ↔
      (statusOk resp.status = false ∨ resp.parsed = none)) := by
  cases hs : statusOk resp.status with
  | false => simp [getDataSingle, hs]
  | true => cases hp : resp.parsed <;> simp [getDataSingle, hs, hp]

theorem dictInsert_key (m : List (String × String)) (q b k : String) :
    (∃ v, (k, v) ∈ dictInsert m q b) ↔ k = q ∨ ∃ v, (k, v) ∈ m := by
  unfold dictInsert
  by_cases hany : m.any (fun p => p.1 == q) = true
  · rw [if_pos hany]
    constructor
    · rintro ⟨v, hv⟩
      rw [List.mem_map] at hv
      obtain ⟨p, hp, hfp⟩ := hv
      by_cases hpq : (p.1 == q) = true
      · rw [if_pos hpq] at hfp
        simp only [Prod.mk.injEq] at hfp
        exact Or.inl hfp.1.symm
      · rw [if_neg hpq] at hfp
        exact Or.inr ⟨v, hfp ▸ hp⟩
    · have hwit : ∀ v0 : String, ∃ v, (q, v) ∈ m.map fun p => if p.1 == q then (q, b) else p := by
        intro v0
        rw [List.any_eq_true] at hany
        obtain ⟨p, hp, hpq⟩ := hany
        exact ⟨b, List.mem_map.2 ⟨p, hp, by rw [if_pos hpq]⟩⟩
      rintro (rfl | ⟨v, hv⟩)
      · exact hwit b
      · by_cases hkq : k = q
        · subst hkq; exact hwit v
        · refine ⟨v, List.mem_map.2 ⟨(k, v), hv, ?_⟩⟩
          rw [if_neg (by simpa using hkq)]
  · rw [if_neg hany]
    constructor
    · rintro ⟨v, hv⟩
      rw [List.mem_append] at hv
      rcases hv with hv | hv
      · exact Or.inr ⟨v, hv⟩
      · simp only [List.mem_singleton, Prod.mk.injEq] at hv
        exact Or.inl hv.1
    · rintro (rfl | ⟨v, hv⟩)
      · exact ⟨b, List.mem_append.2 (Or.inr (by simp))⟩
      · exact ⟨v, List.mem_append.2 (Or.inl hv)⟩

theorem getDataMultiLoop_key (qs : List (String × FhirResponse)) :
    ∀ (acc : List (String × String)) (k : String),
      (∃ v, (k, v) ∈ getDataMultiLoop qs acc) ↔
      (∃ v, (k, v) ∈ acc) ∨ ∃ p ∈ qs, p.1 = k ∧ fetchSucceeds p.2 = true := by
  induction qs with
  | nil => intro acc k; simp [getDataMultiLoop]
  | cons p rest ih =>
    intro acc k
    obtain ⟨q, resp⟩ := p
    cases hst : statusOk resp.status with
    | false =>
      simp only [getDataMultiLoop, hst, Bool.false_eq_true, if_false]
      rw [ih]
      simp [fetchSucceeds, hst]
    | true =>
      cases hp : resp.parsed with
      | none =>
        simp only [getDataMultiLoop, hst, if_true, hp]
        rw [ih]
        simp [fetchSucceeds, hst, hp]
      | some body =>
        simp only [getDataMultiLoop, hst, if_true, hp]
        rw [ih, dictInsert_key]
        simp only [List.mem_cons, fetchSucceeds, hst, hp, Option.isSome_some,
          Bool.and_self]
        constructor
        · rintro ((rfl | ⟨v, hv⟩) | ⟨p2, hp2, hk, hs2⟩)
          · exact Or.inr ⟨(k, resp), Or.inl rfl, rfl, by simp [fetchSucceeds, hst, hp]⟩
          · exact Or.inl ⟨v, hv⟩
          · exact Or.inr ⟨p2, Or.inr hp2, hk, hs2⟩
        · rintro (⟨v, hv⟩ | ⟨p2, hp2 | hp2, hk, hs2⟩)
          · exact Or.inl (Or.inr ⟨v, hv⟩)
          · subst hp2
            exact Or.inl (Or.inl hk.symm)
          · exact Or.inr ⟨p2, hp2, hk, hs2⟩

theorem dictInsert_mem (m : List (String × String)) (q b k v : String)
    (h : (k, v) ∈ dictInsert m q b) : (k, v) ∈ m ∨ (k = q ∧ v = b) := by
  unfold dictInsert at h
  by_cases hany : m.any (fun p => p.1 == q) = true
  · rw [if_pos hany] at h
    rw [List.mem_map] at h
    obtain ⟨p, hp, hfp⟩ := h
    by_cases hpq : (p.1 == q) = true
    · rw [if_pos hpq] at hfp
      simp only [Prod.mk.injEq] at hfp
      exact Or.inr ⟨hfp.1.symm, hfp.2.symm⟩
    · rw [if_neg hpq] at hfp
      exact Or.inl (hfp ▸ hp)
  · rw [if_neg hany] at h
    rw [List.mem_append] at h
    rcases h with h | h
    · exact Or.inl h
    · simp only [List.mem_singleton, Prod.mk.injEq] at h
      exact Or.inr h

theorem getDataMultiLoop_mem (qs : List (String × FhirResponse)) :
    ∀ (acc : List (String × String)) (k v : String),
      (k, v) ∈ getDataMultiLoop qs acc →
      (k, v) ∈ acc ∨ ∃ p ∈ qs, p.1 = k ∧ statusOk p.2.status = true ∧ p.2.parsed = some v := by
  induction qs with
  | nil => intro acc k v h; exact Or.inl h
  | cons p rest ih =>
    intro acc k v h
    obtain ⟨q, resp⟩ := p
    cases hst : statusOk resp.status with
    | false =>
      simp only [getDataMultiLoop, hst, Bool.false_eq_true, if_false] at h
      rcases ih acc k v h with h2 | ⟨p2, hp2, hk, hs2, hv2⟩
      · exact Or.inl h2
      · exact Or.inr ⟨p2, List.mem_cons_of_mem _ hp2, hk, hs2, hv2⟩
    | true =>
      cases hp : resp.parsed with
      | none =>
        simp only [getDataMultiLoop, hst, if_true, hp] at h
        rcases ih acc k v h with h2 | ⟨p2, hp2, hk, hs2, hv2⟩
        · exact Or.inl h2
        · exact Or.inr ⟨p2, List.mem_cons_of_mem _ hp2, hk, hs2, hv2⟩
      | some body =>
        simp only [getDataMultiLoop, hst, if_true, hp] at h
        rcases ih _ k v h with h2 | ⟨p2, hp2, hk, hs2, hv2⟩
        · rcases dictInsert_mem acc q body k v h2 with h3 | ⟨hkq, hvb⟩
          · exact Or.inl h3
          · exact Or.inr ⟨(q, resp), List.mem_cons_self _ _, hkq.symm, hst,
              by rw [hvb]; exact hp⟩
        · exact Or.inr ⟨p2, List.mem_cons_of_mem _ hp2, hk, hs2, hv2⟩

theorem getDataMultiLoop_nil_iff (qs : List (String × FhirResponse)) :
    getDataMultiLoop qs [] = [] ↔ ∀ p ∈ qs, fetchSucceeds p.2 = false := by
  constructor
  · intro h p hp
    by_contra hsucc
    rw [Bool.not_eq_false] at hsucc
    obtain ⟨v, hv⟩ := (getDataMultiLoop_key qs [] p.1).2 (Or.inr ⟨p, hp, rfl, hsucc⟩)
    rw [h] at hv
    exact absurd hv (List.not_mem_nil _)
  · intro h
    rw [List.eq_nil_iff_forall_not_mem]
    rintro ⟨k, v⟩ hm
    rcases (getDataMultiLoop_key qs [] k).1 ⟨v, hm⟩ with ⟨v2, hv2⟩ | ⟨p, hp, _, hsucc⟩
    · exact absurd hv2 (List.not_mem_nil _)
    · rw [h p hp] at hsucc
      exact Bool.false_ne_true hsucc

/-- C9: the multi-query branch issues each query independently, returns a
mapping whose keys are exactly the successful queries and whose every entry
maps a query to the parsed body of a successful response to that query, skips
failed queries without aborting the rest, never raises (its outcome is always
a mapping or the False sentinel), and returns False rather than an empty
mapping when no query succeeded. -/
theorem c9_multi_query (qs : List (String × FhirResponse)) :
    (getDataMulti qs = GetDataResult.noData ↔ ∀ p ∈ qs, fetchSucceeds p.2 = false)
    ∧ (∀ m, getDataMulti qs = GetDataResult.multi m →
      (∀ k, (∃ v, (k, v) ∈ m) ↔ ∃ p ∈ qs, p.1 = k ∧ fetchSucceeds p.2 = true)
      ∧ ∀ k v, (k, v) ∈ m →
        ∃ p ∈ qs, p.1 = k ∧ statusOk p.2.status = true ∧ p.2.parsed = some v)
    ∧ (getDataMulti qs = GetDataResult.noData ∨ ∃ m, getDataMulti qs = GetDataResult.multi m) := by
  cases hemp : (getDataMultiLoop qs []).isEmpty with
  | true =>
    have hempty : getDataMultiLoop qs [] = [] := by
      simpa [List.isEmpty_iff] using hemp
    have hval : getDataMulti qs = GetDataResult.noData := by
      unfold getDataMulti
      rw [hempty]
      rfl
    refine ⟨?_, ?_, Or.inl hval⟩
    · exact iff_of_true hval ((getDataMultiLoop_nil_iff qs).1 hempty)
    · intro m hm
      rw [hval] at hm
      exact absurd hm (by simp)
  | false =>
    have hne2 : getDataMultiLoop qs [] ≠ [] := by
      intro h0
      rw [h0] at hemp
      simp at hemp
    have hval : getDataMulti qs = GetDataResult.multi (getDataMultiLoop qs []) := by
      unfold getDataMulti
      simp only [hemp, Bool.false_eq_true, if_false]
    refine ⟨?_, ?_, Or.inr ⟨getDataMultiLoop qs [], hval⟩⟩
    · refine iff_of_false (by rw [hval]; simp) ?_
      intro hall
      exact hne2 ((getDataMultiLoop_nil_iff qs).2 hall)
    · intro m hm
      rw [hval] at hm
      injection hm with hm2
      subst hm2
      constructor
      · intro k
        rw [getDataMultiLoop_key qs [] k]
        simp
      · intro k v hkv
        rcases getDataMultiLoop_mem qs [] k v hkv with h2 | h2
        · exact absurd h2 (List.not_mem_nil _)
        · exact h2

theorem countSignals_le_one (env : AggEnv) :
    ∀ fuel i flag, countSignals (runAggregator env fuel i flag).1 ≤ 1 := by
  intro fuel
  induction fuel with
  | zero => intro i flag; simp [runAggregator, countSignals]
  | succ fuel ih =>
    intro i flag
    cases flag with
    | true => simp [runAggregator, countSignals]
    | false =>
      rw [runAggregator]
      simp only [Bool.false_eq_true, if_false]
      cases hc : collectStep (env.responses i) with
      | reblock => simpa [countSignals] using ih (i + 1) false
      | fault => simp [countSignals]
      | aggregate results =>
        simp only []
        cases hconv : (env.aggregateStrat i results).2 with
        | false => simpa [hconv, countSignals] using ih (i + 1) false
        | true =>
          cases hsub : env.submitOk with
          | false => simp [hconv, hsub, countSignals]
          | true => simp [hconv, hsub, countSignals, runAggregator_flagTrue]

theorem cons_append_signal {e : AggEvent} {l pre post : List AggEvent}
    (hne : e ≠ AggEvent.signalFinished)
    (h : e :: l = pre ++ AggEvent.signalFinished :: post) :
    ∃ pre2, pre = e :: pre2 ∧ l = pre2 ++ AggEvent.signalFinished :: post := by
  cases pre with
  | nil =>
    simp only [List.nil_append, List.cons.injEq] at h
    exact absurd h.1 hne
  | cons a pre2 =>
    simp only [List.cons_append, List.cons.injEq] at h
    exact ⟨pre2, by rw [h.1], h.2⟩

theorem runAggregator_signal_after_submit (env : AggEnv) :
    ∀ fuel i pre post,
      (runAggregator env fuel i false).1 = pre ++ AggEvent.signalFinished :: post →
      env.submitOk = true ∧ ∃ pre2 res, pre = pre2 ++ [AggEvent.submitCall res] := by
  intro fuel
  induction fuel with
  | zero =>
    intro i pre post h
    simp only [runAggregator] at h
    simp at h
  | succ fuel ih =>
    intro i pre post h
    rw [runAggregator] at h
    simp only [Bool.false_eq_true, if_false] at h
    cases hc : collectStep (env.responses i) with
    | reblock =>
      simp only [hc] at h
      obtain ⟨pre2, hpre, hrest⟩ :=
        cons_append_signal (fun hx => AggEvent.noConfusion hx) h
      obtain ⟨hsub, pre3, res, hpre3⟩ := ih (i + 1) pre2 post hrest
      exact ⟨hsub, AggEvent.collect :: pre3, res, by rw [hpre, hpre3]; rfl⟩
    | fault =>
      simp only [hc] at h
      obtain ⟨pre2, hpre, hrest⟩ :=
        cons_append_signal (fun hx => AggEvent.noConfusion hx) h
      simp at hrest
    | aggregate results =>
      simp only [hc] at h
      cases hconv : (env.aggregateStrat i results).2 with
      | false =>
        simp only [hconv, Bool.false_eq_true, if_false] at h
        obtain ⟨pre2, hpre, h2⟩ :=
          cons_append_signal (fun hx => AggEvent.noConfusion hx) h
        obtain ⟨pre3, hpre2, h3⟩ :=
          cons_append_signal (fun hx => AggEvent.noConfusion hx) h2
        obtain ⟨pre4, hpre3, h4⟩ :=
          cons_append_signal (fun hx => AggEvent.noConfusion hx) h3
        obtain ⟨hsub, pre5, res, hpre4⟩ := ih (i + 1) pre4 post h4
        refine ⟨hsub, AggEvent.collect :: AggEvent.aggregateCall results ::
          AggEvent.broadcast (env.aggregateStrat i results).1 :: pre5, res, ?_⟩
        rw [hpre, hpre2, hpre3, hpre4]
        rfl
      | true =>
        cases hsub : env.submitOk with
        | false =>
          simp only [hconv, hsub, Bool.false_eq_true, if_false, if_true] at h
          obtain ⟨pre2, hpre, h2⟩ :=
            cons_append_signal (fun hx => AggEvent.noConfusion hx) h
          obtain ⟨pre3, hpre2, h3⟩ :=
            cons_append_signal (fun hx => AggEvent.noConfusion hx) h2
          simp at h3
        | true =>
          simp only [hconv, hsub, if_true, runAggregator_flagTrue] at h
          obtain ⟨pre2, hpre, h2⟩ :=
            cons_append_signal (fun hx => AggEvent.noConfusion hx) h
          obtain ⟨pre3, hpre2, h3⟩ :=
            cons_append_signal (fun hx => AggEvent.noConfusion hx) h2
          obtain ⟨pre4, hpre3, h4⟩ :=
            cons_append_signal (fun hx => AggEvent.noConfusion hx) h3
          cases pre4 with
          | nil =>
            refine ⟨rfl, AggEvent.collect :: AggEvent.aggregateCall results :: [],
              (env.aggregateStrat i results).1, ?_⟩
            rw [hpre, hpre2, hpre3]
            rfl
          | cons b pre5 =>
            simp only [List.cons_append, List.cons.injEq] at h4
            have h5 := h4.2
            simp at h5

theorem runAggregator_no_signal_of_submitRaises (env : AggEnv) (hs : env.submitOk = false) :
    ∀ fuel i flag, AggEvent.signalFinished ∉ (runAggregator env fuel i flag).1 := by
  intro fuel
  induction fuel with
  | zero => intro i flag; simp [runAggregator]
  | succ fuel ih =>
    intro i flag
    cases flag with
    | true => simp [runAggregator]
    | false =>
      rw [runAggregator]
      simp only [Bool.false_eq_true, if_false]
      cases hc : collectStep (env.responses i) with
      | reblock => simpa using ih (i + 1) false
      | fault => simp
      | aggregate results =>
        simp only []
        cases hconv : (env.aggregateStrat i results).2 with
        | false => simpa [hconv] using ih (i + 1) false
        | true => simp [hconv, hs]

/-- C2: along every run of the aggregator loop started with the global flag
false, the analysis-finished signal is raised at most once; whenever it is
raised, submission succeeded and the event immediately preceding it is the
submission of the aggregated result; and if submission raises, the signal
never happens. -/
theorem c2_signal_once_after_submit (env : AggEnv) (fuel i : Nat) :
    countSignals (runAggregator env fuel i false).1 ≤ 1
    ∧ (∀ pre post,
        (runAggregator env fuel i false).1 = pre ++ AggEvent.signalFinished :: post →
        env.submitOk = true ∧ ∃ pre2 res, pre = pre2 ++ [AggEvent.submitCall res])
    ∧ (env.submitOk = false → AggEvent.signalFinished ∉ (runAggregator env fuel i false).1) :=
  ⟨countSignals_le_one env fuel i false,
   runAggregator_signal_after_submit env fuel i,
   fun hs => runAggregator_no_signal_of_submitRaises env hs fuel i false⟩

theorem anaIteration_converged (env : AnaEnv) (s : AnaState) (h : s.converged = true) :
    anaIteration env s = ([], ⟨s.rc + 1, s.ac, s.wc, true, s.aggResults⟩, false) := by
  simp [anaIteration, anaWaitStep, h]

theorem runAnalyzer_converged_events (env : AnaEnv) :
    ∀ fuel s, s.converged = true → (runAnalyzer env fuel s).1 = [] := by
  intro fuel
  induction fuel with
  | zero => intro s h; rfl
  | succ fuel ih =>
    intro s h
    rw [runAnalyzer]
    by_cases hf : env.flagReads s.rc = true
    · simp [hf]
    · rw [if_neg hf]
      rw [anaIteration_converged env ⟨s.rc + 1, s.ac, s.wc, s.converged, s.aggResults⟩ h]
      simp only [Bool.false_eq_true, if_false]
      rw [List.nil_append]
      exact ih _ rfl

/-- C5: from any analyzer loop state whose local converged variable is true,
no later iteration invokes the analysis strategy, sends intermediate_results,
or waits for aggregated_results: the remaining trace is event-free until the
global flag ends the loop. -/
theorem c5_no_activity_after_local_convergence (env : AnaEnv) (fuel : Nat) (s : AnaState)
    (h : s.converged = true) :
    (∀ res, AnaEvent.analyzeCall res ∉ (runAnalyzer env fuel s).1)
    ∧ (∀ res, AnaEvent.sendIntermediate res ∉ (runAnalyzer env fuel s).1)
    ∧ AnaEvent.waitForAggregated ∉ (runAnalyzer env fuel s).1 := by
  rw [runAnalyzer_converged_events env fuel s h]
  simp

/-- C5 witness: a concrete already-converged state under an environment whose
global flag stays false; the theorem applies and the loop emits nothing. -/
theorem c5_witness :
    (∀ res, AnaEvent.analyzeCall res ∉ (runAnalyzer quietAnaEnv 3 convergedAnaState).1)
    ∧ (∀ res, AnaEvent.sendIntermediate res ∉ (runAnalyzer quietAnaEnv 3 convergedAnaState).1)
    ∧ AnaEvent.waitForAggregated ∉ (runAnalyzer quietAnaEnv 3 convergedAnaState).1 :=
  c5_no_activity_after_local_convergence quietAnaEnv 3 convergedAnaState rfl

/-- C6: the extraction on line 114 faults on a timed-out wait: a None entry
for the aggregator raises (faultNone, the TypeError of subscripting None), an
empty message list raises (faultEmpty, the IndexError of index -1), and a
concrete analyzer run whose first wait times out ends in waitFault instead of
proceeding. -/
theorem c6_timeout_extraction_faults :
    extractLatestAggResult none = ExtractOutcome.faultNone
    ∧ extractLatestAggResult (some []) = ExtractOutcome.faultEmpty
    ∧ runAnalyzer quietAnaEnv 1 ⟨0, 0, 0, false, none⟩ =
      ([AnaEvent.analyzeCall "5", AnaEvent.sendIntermediate "5", AnaEvent.waitForAggregated],
        AnaExit.waitFault) :=
  ⟨rfl, rfl, rfl⟩

/-- C7: invoking start_aggregator on a process whose role is not aggregator
returns the role-mismatch error with an empty event trace — before any
ready_check message, any strategy instantiation and the round loop — and
symmetrically for start_analyzer on a non-analyzer process. -/
theorem c7_role_mismatch_immediate (role1 role2 : String) (arg1 arg2 : StrategyArg)
    (att1 att2 : List (List NodeID)) (numPartners : Nat) (aggId : NodeID)
    (env1 : AggEnv) (env2 : AnaEnv) (fuel1 fuel2 : Nat)
    (h1 : is_aggregator role1 = false) (h2 : is_analyzer role2 = false) :
    start_aggregator role1 arg1 att1 numPartners env1 fuel1 =
      ([], AggStartOutcome.roleMismatch IS_ANALYZER_MSG)
    ∧ start_analyzer role2 arg2 att2 aggId env2 fuel2 =
      ([], AnaStartOutcome.roleMismatch IS_AGGREGATOR_MSG) :=
  ⟨by simp [start_aggregator, h1], by simp [start_analyzer, h2]⟩

/-- C7 witness: the aggregator entrypoint invoked on an analyzer-role process
and the analyzer entrypoint invoked on an aggregator-role process. -/
theorem c7_witness :
    start_aggregator "default" StrategyArg.inst [] 0 quietAggEnv 0 =
      ([], AggStartOutcome.roleMismatch IS_ANALYZER_MSG)
    ∧ start_analyzer "aggregator" StrategyArg.inst [] 0 quietAnaEnv 0 =
      ([], AnaStartOutcome.roleMismatch IS_AGGREGATOR_MSG) :=
  c7_role_mismatch_immediate "default" "aggregator" StrategyArg.inst StrategyArg.inst
    [] [] 0 0 quietAggEnv quietAnaEnv 0 0 (by decide) (by decide)

/-- C10: role detection is an exact string comparison, so a role that is
neither aggregator nor default is rejected by both entrypoints: the
aggregator entrypoint raises the node-is-configured-as-analyzer error and the
analyzer entrypoint raises the node-is-configured-as-aggregator error, even
though the node is neither. -/
theorem c10_unknown_role_rejected_by_both (role : String) (arg1 arg2 : StrategyArg)
    (att1 att2 : List (List NodeID)) (numPartners : Nat) (aggId : NodeID)
    (env1 : AggEnv) (env2 : AnaEnv) (fuel1 fuel2 : Nat)
    (h1 : role ≠ "aggregator") (h2 : role ≠ "default") :
    start_aggregator role arg1 att1 numPartners env1 fuel1 =
      ([], AggStartOutcome.roleMismatch IS_ANALYZER_MSG)
    ∧ start_analyzer role arg2 att2 aggId env2 fuel2 =
      ([], AnaStartOutcome.roleMismatch IS_AGGREGATOR_MSG) := by
  have hb1 : is_aggregator role = false := by
    simp only [is_aggregator, beq_eq_false_iff_ne, ne_eq]
    exact h1
  have hb2 : is_analyzer role = false := by
    simp only [is_analyzer, beq_eq_false_iff_ne, ne_eq]
    exact h2
  exact ⟨by simp [start_aggregator, hb1], by simp [start_analyzer, hb2]⟩

/-- C10 witness: a role string that is neither aggregator nor default. -/
theorem c10_witness :
    start_aggregator "worker" StrategyArg.inst [] 0 quietAggEnv 0 =
      ([], AggStartOutcome.roleMismatch IS_ANALYZER_MSG)
    ∧ start_analyzer "worker" StrategyArg.inst [] 0 quietAnaEnv 0 =
      ([], AnaStartOutcome.roleMismatch IS_AGGREGATOR_MSG) :=
  c10_unknown_role_rejected_by_both "worker" StrategyArg.inst StrategyArg.inst
    [] [] 0 0 quietAggEnv quietAnaEnv 0 0 (by decide) (by decide)

end StarSDK
